import Mathlib

/-!
Shallow embedding of the TuneForge domain-model layer
(src/models/Song.js, src/models/User.js, src/models/Playlist.js).

User ids and song ids are modelled as `Nat` (Mongo ObjectIds compared by
value: mongoose array `indexOf`/`find` compare ids by value equality).
JS `Array.prototype.splice(indexOf(x), 1)` removes the first occurrence,
modelled by `List.erase`; `push` appends at the end.
A thrown JS exception is modelled by `Except.error`.
-/

deriving instance DecidableEq for Except

namespace TuneForge

/-- A JS exception: `typeError` models the `TypeError` raised when a method
such as `toString` is invoked on `null`/`undefined`; `error msg` models a
thrown `new Error(msg)`. -/
inductive JsError
  | typeError
  | error (msg : String)
deriving DecidableEq

/-! ### Song aggregate (src/models/Song.js) -/

/-- The like/dislike state of a song: the `likes` and `dislikes` arrays of
user ids (src/models/Song.js lines 56-63). -/
structure SongState where
  likes : List Nat
  dislikes : List Nat
deriving DecidableEq

/-- `songSchema.methods.toggleLike` (src/models/Song.js lines 142-158):
if `userId` is in `likes` (indexOf > -1) remove that occurrence; otherwise
push `userId` onto `likes` and, if present, remove it from `dislikes`.
Both indexOf lookups happen before any mutation, as in the source. -/
def toggleLike (s : SongState) (userId : Nat) : SongState :=
  if userId ∈ s.likes then
    { s with likes := s.likes.erase userId }
  else
    { likes := s.likes ++ [userId]
      dislikes := if userId ∈ s.dislikes then s.dislikes.erase userId else s.dislikes }

/-- `songSchema.methods.toggleDislike` (src/models/Song.js lines 161-177),
symmetric to `toggleLike`. -/
def toggleDislike (s : SongState) (userId : Nat) : SongState :=
  if userId ∈ s.dislikes then
    { s with dislikes := s.dislikes.erase userId }
  else
    { dislikes := s.dislikes ++ [userId]
      likes := if userId ∈ s.likes then s.likes.erase userId else s.likes }

/-- One call in a sequence of like/dislike toggles on a song. -/
inductive ToggleOp
  | like (userId : Nat)
  | dislike (userId : Nat)
deriving DecidableEq

/-- Apply one toggle call to a song's state. -/
def applyToggle (s : SongState) : ToggleOp → SongState
  | .like u => toggleLike s u
  | .dislike u => toggleDislike s u

/-- Run a sequence of toggle calls left to right. -/
def runToggles (s : SongState) (ops : List ToggleOp) : SongState :=
  ops.foldl applyToggle s

/-- The state invariant of the song's social state: `likes` and `dislikes`
are sets (no duplicate ids, as mongoose builds them: `push` is guarded by
`indexOf === -1`) and no user is in both. -/
def SongStateWF (s : SongState) : Prop :=
  s.likes.Nodup ∧ s.dislikes.Nodup ∧ ∀ u ∈ s.likes, u ∉ s.dislikes

instance (s : SongState) : Decidable (SongStateWF s) := by
  unfold SongStateWF; infer_instance

/-! ### User aggregate (src/models/User.js) -/

/-- One entry of `listeningHistory` (src/models/User.js lines 95-105). -/
structure HistEntry where
  song : Nat
  playedAt : Nat
  duration : Nat
deriving DecidableEq

/-- `userSchema.methods.addToHistory` (src/models/User.js lines 154-167):
`unshift` prepends the new entry; if the list then has more than 100
entries it is truncated to the first 100 (`slice(0, 100)`). -/
def addToHistory (history : List HistEntry) (songId duration now : Nat) :
    List HistEntry :=
  let h := { song := songId, playedAt := now, duration := duration } :: history
  if h.length > 100 then h.take 100 else h

/-! ### Playlist aggregate (src/models/Playlist.js) -/

/-- Collaborator role, `enum: ['editor', 'viewer']` (lines 37-41). -/
inductive Role
  | editor
  | viewer
deriving DecidableEq

/-- One entry of the `collaborators` array (lines 32-46). -/
structure Collab where
  user : Nat
  role : Role
  addedAt : Nat
deriving DecidableEq

/-- One entry of the `songs` membership array (lines 47-65). -/
structure SongEntry where
  song : Nat
  addedAt : Nat
  addedBy : Nat
  order : Int
deriving DecidableEq

/-- A persisted `Song` document, reduced to the fields the playlist layer
reads: its id and its `duration` in seconds (src/models/Song.js lines 23-26). -/
structure SongRec where
  id : Nat
  duration : Nat
deriving DecidableEq

/-- The `Song` collection of the persistence service, as visited by
`Song.find({ _id: { $in: songIds } })`: a list of documents with distinct ids. -/
abbrev SongStore := List SongRec

/-- A playlist document, reduced to the fields the claims are about
(src/models/Playlist.js lines 3-118). -/
structure Playlist where
  isPublic : Bool
  isCollaborative : Bool
  createdBy : Nat
  collaborators : List Collab
  songs : List SongEntry
  duration : Nat
deriving DecidableEq

/-- The `pre('save')` middleware (src/models/Playlist.js lines 276-285):
only when the `songs` array is non-empty, `duration` is recomputed as the
sum of the durations of the store documents whose id occurs among the
member song ids; when `songs` is empty the middleware leaves `duration`
untouched. -/
def preSave (store : SongStore) (p : Playlist) : Playlist :=
  if p.songs.length > 0 then
    let songIds := p.songs.map (·.song)
    let found := store.filter (fun s => songIds.contains s.id)
    { p with duration := found.foldl (fun total s => total + s.duration) 0 }
  else p

/-- `Math.max(...this.songs.map(s => s.order))` over a non-empty list
(the `[]` case is unreachable: the source guards with `length > 0`). -/
def listMax : List Int → Int
  | [] => 0
  | [x] => x
  | x :: y :: ys => max x (listMax (y :: ys))

/-- `playlistSchema.methods.addSong` (src/models/Playlist.js lines 144-161):
throws `Error('Song already exists in playlist')` if `songId` is already a
member; otherwise pushes an entry with order `maxOrder + 1` (where
`maxOrder` is the maximum existing order, or 0 for an empty list), records
`addedBy`/`addedAt`, and saves (running the `pre('save')` recompute). -/
def addSong (store : SongStore) (p : Playlist) (songId userId now : Nat) :
    Except JsError Playlist :=
  if (p.songs.find? (fun s => s.song == songId)).isSome then
    .error (.error "Song already exists in playlist")
  else
    let maxOrder : Int := if p.songs.length > 0 then listMax (p.songs.map (·.order)) else 0
    .ok (preSave store
      { p with songs := p.songs ++
          [{ song := songId, addedAt := now, addedBy := userId, order := maxOrder + 1 }] })

/-- `playlistSchema.methods.removeSong` (src/models/Playlist.js lines
164-167): filters out every entry whose song id equals `songId` and saves.
The body can throw no exception, so the result is always `Except.ok`. -/
def removeSong (store : SongStore) (p : Playlist) (songId : Nat) :
    Except JsError Playlist :=
  .ok (preSave store { p with songs := p.songs.filter (fun s => s.song != songId) })

/-- A `{ songId, newOrder }` pair passed to `reorderSongs`. -/
structure Assign where
  songId : Nat
  newOrder : Int
deriving DecidableEq

/-- `this.songs.find(...)` followed by `song.order = newOrder`: set the
order of the first entry matching `songId`, if any. -/
def setOrderFirst (sid : Nat) (n : Int) : List SongEntry → List SongEntry
  | [] => []
  | e :: es => if e.song == sid then { e with order := n } :: es
               else e :: setOrderFirst sid n es

/-- The `songOrders.forEach` loop of `reorderSongs`: apply each assignment
in turn. -/
def applyAssigns (assigns : List Assign) (songs : List SongEntry) : List SongEntry :=
  assigns.foldl (fun acc a => setOrderFirst a.songId a.newOrder acc) songs

/-- Stable insertion of an entry into a list already sorted by `order`. -/
def insertByOrder (e : SongEntry) : List SongEntry → List SongEntry
  | [] => [e]
  | f :: fs => if e.order ≤ f.order then e :: f :: fs else f :: insertByOrder e fs

/-- `this.songs.sort((a, b) => a.order - b.order)`: a stable ascending sort
by the order key (JS `Array.prototype.sort` is stable), modelled as a
stable insertion sort. -/
def sortByOrder (l : List SongEntry) : List SongEntry :=
  l.foldr insertByOrder []

/-- `playlistSchema.methods.reorderSongs` (src/models/Playlist.js lines
170-181): apply the `{songId, newOrder}` assignments, sort by order
ascending, and save. -/
def reorderSongs (store : SongStore) (p : Playlist) (assigns : List Assign) : Playlist :=
  preSave store { p with songs := sortByOrder (applyAssigns assigns p.songs) }

/-- `existingCollaborator.role = role`: set the role of the first
collaborator entry matching `userId`, if any. -/
def setRoleFirst (uid : Nat) (r : Role) : List Collab → List Collab
  | [] => []
  | c :: cs => if c.user == uid then { c with role := r } :: cs
               else c :: setRoleFirst uid r cs

/-- `playlistSchema.methods.addCollaborator` (src/models/Playlist.js lines
184-197): if a collaborator entry for `userId` exists, its role is updated
in place; otherwise a new entry is pushed. There is no check whatsoever
against `userId` being the playlist owner (`createdBy`); the method then
saves. -/
def addCollaborator (store : SongStore) (p : Playlist) (userId : Nat)
    (role : Role) (now : Nat) : Playlist :=
  if (p.collaborators.find? (fun c => c.user == userId)).isSome then
    preSave store { p with collaborators := setRoleFirst userId role p.collaborators }
  else
    preSave store
      { p with collaborators := p.collaborators ++ [{ user := userId, role := role, addedAt := now }] }

/-- `playlistSchema.methods.canEdit` (src/models/Playlist.js lines 206-212).
The acting user id may be absent (`req.session.user?.id` is `undefined` for
an anonymous caller, modelled as `none`); the source's first statement
`this.createdBy.toString() === userId.toString()` then throws a
`TypeError`, so the function errors before producing a boolean.
For a present id: true for the owner; false when the playlist is not
collaborative; otherwise true exactly when the first collaborator entry
for the user has role `editor` (the JS `collaborator && collaborator.role
=== 'editor'` yields the falsy `undefined` when no entry exists, which the
boolean model renders as `false`). -/
def canEdit (p : Playlist) (userId : Option Nat) : Except JsError Bool :=
  match userId with
  | none => .error .typeError
  | some u =>
    if p.createdBy == u then .ok true
    else if !p.isCollaborative then .ok false
    else .ok (match p.collaborators.find? (fun c => c.user == u) with
      | some c => c.role == Role.editor
      | none => false)

/-- `playlistSchema.methods.canView` (src/models/Playlist.js lines 215-221):
returns true at once when the playlist is public (before the user id is
touched); otherwise `userId.toString()` throws a `TypeError` for an absent
id, and for a present id the result is: owner, or member of the
collaborator list. -/
def canView (p : Playlist) (userId : Option Nat) : Except JsError Bool :=
  if p.isPublic then .ok true
  else match userId with
    | none => .error .typeError
    | some u =>
      .ok (p.createdBy == u || (p.collaborators.find? (fun c => c.user == u)).isSome)

/-! ### Concrete states used by the example and witness theorems -/

/-- A one-document song store: song 1 lasts 300 seconds. -/
def demoStore : SongStore := [{ id := 1, duration := 300 }]

/-- A fresh empty playlist owned by user 7. -/
def demoEmptyPl : Playlist :=
  { isPublic := true, isCollaborative := false, createdBy := 7,
    collaborators := [], songs := [], duration := 0 }

/-- A playlist whose single member is song 1 (300 seconds). -/
def demoOneSongPl : Playlist :=
  { isPublic := true, isCollaborative := false, createdBy := 7,
    collaborators := [],
    songs := [{ song := 1, addedAt := 0, addedBy := 7, order := 1 }],
    duration := 300 }

/-- A collaborative playlist owned by user 1 whose only collaborator,
user 2, has role `viewer`. -/
def demoViewerPl : Playlist :=
  { isPublic := true, isCollaborative := true, createdBy := 1,
    collaborators := [{ user := 2, role := Role.viewer, addedAt := 0 }],
    songs := [], duration := 0 }

/-- A private playlist owned by user 7. -/
def demoPrivatePl : Playlist :=
  { isPublic := false, isCollaborative := true, createdBy := 7,
    collaborators := [{ user := 8, role := Role.viewer, addedAt := 0 }],
    songs := [], duration := 0 }

/-- The same playlist made public. -/
def demoPublicPl : Playlist := { demoPrivatePl with isPublic := true }

/-- A playlist owned by user 1 with an empty collaborator list. -/
def demoOwnerPl : Playlist :=
  { isPublic := true, isCollaborative := true, createdBy := 1,
    collaborators := [], songs := [], duration := 0 }

/-- The 3-song playlist `[S1:1, S2:2, S3:3]` of the reorder scenario. -/
def demoReorderPl : Playlist :=
  { isPublic := true, isCollaborative := false, createdBy := 7,
    collaborators := [],
    songs := [{ song := 1, addedAt := 0, addedBy := 7, order := 1 },
              { song := 2, addedAt := 0, addedBy := 7, order := 2 },
              { song := 3, addedAt := 0, addedBy := 7, order := 3 }],
    duration := 0 }

/-- The reorder assignments `[{S3,1},{S1,3}]` of the scenario. -/
def demoAssigns : List Assign :=
  [{ songId := 3, newOrder := 1 }, { songId := 1, newOrder := 3 }]

/-- A well-formed song like/dislike state: user 3 likes, user 4 dislikes. -/
def demoSongState : SongState := { likes := [3], dislikes := [4] }

/-- A sample toggle sequence. -/
def demoToggleOps : List ToggleOp := [ToggleOp.like 1, ToggleOp.dislike 2]

/-- 105 sequential `addToHistory` calls starting from an empty history;
the i-th call plays song i at time i for i seconds. -/
def hist105 : List HistEntry :=
  (List.range 105).foldl (fun h i => addToHistory h i i i) []

/-! ### Song aggregate: the like/dislike invariant -/

/-- `toggleLike` preserves well-formedness of the like/dislike state. -/
lemma SongStateWF.toggleLike (h : SongStateWF s) (u : Nat) :
    SongStateWF (TuneForge.toggleLike s u) := by
  obtain ⟨hl, hd, hdisj⟩ := h
  unfold TuneForge.toggleLike
  split
  · exact ⟨hl.erase u, hd, fun v hv => hdisj v (List.mem_of_mem_erase hv)⟩
  · rename_i hu
    refine ⟨?_, ?_, ?_⟩
    · simp [List.nodup_append, hl, hu]
    · split
      · exact hd.erase u
      · exact hd
    · intro v hv
      rcases List.mem_append.1 hv with h1 | h2
      · split
        · rename_i hud
          intro hvd
          exact hdisj v h1 (List.mem_of_mem_erase hvd)
        · exact hdisj v h1
      · have hvu : v = u := by simpa using h2
        subst hvu
        split
        · exact hd.not_mem_erase
        · rename_i hud
          exact hud

/-- `toggleDislike` preserves well-formedness of the like/dislike state. -/
lemma SongStateWF.toggleDislike (h : SongStateWF s) (u : Nat) :
    SongStateWF (TuneForge.toggleDislike s u) := by
  obtain ⟨hl, hd, hdisj⟩ := h
  unfold TuneForge.toggleDislike
  split
  · refine ⟨hl, hd.erase u, fun v hv hvd => hdisj v hv (List.mem_of_mem_erase hvd)⟩
  · rename_i hu
    refine ⟨?_, ?_, ?_⟩
    · split
      · exact hl.erase u
      · exact hl
    · simp [List.nodup_append, hd, hu]
    · intro v hv hvd
      rcases List.mem_append.1 hvd with h1 | h2
      · revert hv
        split
        · rename_i hul
          intro hv
          exact hdisj v (List.mem_of_mem_erase hv) h1
        · intro hv
          exact hdisj v hv h1
      · have hvu : v = u := by simpa using h2
        subst hvu
        revert hv
        split
        · intro hv
          exact absurd hv hl.not_mem_erase
        · rename_i hul
          intro hv
          exact hul hv

/-- A single toggle call preserves well-formedness. -/
lemma SongStateWF.applyToggle (h : SongStateWF s) (op : ToggleOp) :
    SongStateWF (TuneForge.applyToggle s op) := by
  cases op with
  | like u => exact h.toggleLike u
  | dislike u => exact h.toggleDislike u

/-- Every sequence of toggle calls preserves well-formedness. -/
lemma SongStateWF.runToggles (h : SongStateWF s) (ops : List ToggleOp) :
    SongStateWF (TuneForge.runToggles s ops) := by
  induction ops generalizing s with
  | nil => exact h
  | cons op ops ih => exact ih (h.applyToggle op)

/-- From a well-formed state, `toggleLike u` then `toggleDislike u` puts `u`
in `dislikes` and removes it from `likes`. -/
lemma like_then_dislike (h : SongStateWF s) (u : Nat) :
    u ∈ (toggleDislike (toggleLike s u) u).dislikes ∧
    u ∉ (toggleDislike (toggleLike s u) u).likes := by
  obtain ⟨hl, hd, hdisj⟩ := h
  unfold toggleLike toggleDislike
  by_cases hu : u ∈ s.likes
  · have hud : u ∉ s.dislikes := hdisj u hu
    simp only [if_pos hu]
    have h1 : u ∉ s.likes.erase u := hl.not_mem_erase
    simp only [if_neg hud]
    constructor
    · simp
    · simp only [if_neg h1]
      exact h1
  · simp only [if_neg hu]
    have hud' : u ∉ (if u ∈ s.dislikes then s.dislikes.erase u else s.dislikes) := by
      split
      · exact hd.not_mem_erase
      · assumption
    simp only [if_neg hud']
    have hmem : u ∈ s.likes ++ [u] := by simp
    constructor
    · simp
    · simp only [if_pos hmem]
      rw [List.erase_append_right _ hu]
      simpa using hu

/-! ### Playlist aggregate: basic lemmas -/

/-- The pre-save middleware never changes the `songs` array. -/
lemma preSave_songs (store : SongStore) (p : Playlist) :
    (preSave store p).songs = p.songs := by
  unfold preSave
  split <;> rfl

/-- The pre-save middleware never changes the `collaborators` array. -/
lemma preSave_collaborators (store : SongStore) (p : Playlist) :
    (preSave store p).collaborators = p.collaborators := by
  unfold preSave
  split <;> rfl

/-- `listMax` bounds every element of the list. -/
lemma listMax_ge (l : List Int) (x : Int) (hx : x ∈ l) : x ≤ listMax l := by
  induction l with
  | nil => cases hx
  | cons a l ih =>
    cases l with
    | nil =>
      simp at hx
      simp [listMax, hx]
    | cons b m =>
      rcases List.mem_cons.1 hx with h | h
      · subst h
        simp [listMax]
      · have := ih h
        simp only [listMax]
        exact le_max_of_le_right this

/-- Updating a collaborator's role in place keeps the list of user ids. -/
lemma setRoleFirst_map_user (uid : Nat) (r : Role) (l : List Collab) :
    (setRoleFirst uid r l).map (·.user) = l.map (·.user) := by
  induction l with
  | nil => rfl
  | cons c cs ih =>
    unfold setRoleFirst
    split
    · rfl
    · simp [ih]

/-- After `addCollaborator store p uid r now`, `uid` is always among the
collaborator user ids: the source upserts unconditionally. -/
lemma addCollaborator_mem (store : SongStore) (p : Playlist) (uid : Nat)
    (r : Role) (now : Nat) :
    uid ∈ (addCollaborator store p uid r now).collaborators.map (·.user) := by
  unfold addCollaborator
  split
  · rename_i hfind
    rw [preSave_collaborators, setRoleFirst_map_user]
    obtain ⟨c, hc⟩ := Option.isSome_iff_exists.1 hfind
    have hmem := List.mem_of_find?_eq_some hc
    have hpred := List.find?_some hc
    have : c.user = uid := by simpa using hpred
    exact List.mem_map.2 ⟨c, hmem, this⟩
  · rw [preSave_collaborators]
    simp

/-- The owner can always edit. -/
lemma canEdit_owner (p : Playlist) (u : Nat) (h : p.createdBy = u) :
    canEdit p (some u) = .ok true := by
  simp [canEdit, h]

/-- A user who is neither owner nor collaborator cannot edit. -/
lemma canEdit_stranger (p : Playlist) (u : Nat) (h : p.createdBy ≠ u)
    (hc : ∀ c ∈ p.collaborators, c.user ≠ u) :
    canEdit p (some u) = .ok false := by
  have hfind : p.collaborators.find? (fun c => c.user == u) = none := by
    apply List.find?_eq_none.2
    intro c hcmem
    simpa using hc c hcmem
  simp only [canEdit, beq_iff_eq, h, if_false]
  split
  · rfl
  · rw [hfind]

/-- A non-owner whose collaborator entries all carry role `viewer` cannot
edit. -/
lemma canEdit_viewer (p : Playlist) (u : Nat) (h : p.createdBy ≠ u)
    (hc : ∀ c ∈ p.collaborators, c.user = u → c.role = Role.viewer) :
    canEdit p (some u) = .ok false := by
  simp only [canEdit, beq_iff_eq, h, if_false]
  split
  · rfl
  · cases hfind : p.collaborators.find? (fun c => c.user == u) with
    | none => rfl
    | some c =>
      have hmem := List.mem_of_find?_eq_some hfind
      have hpred : c.user = u := by simpa using List.find?_some hfind
      have := hc c hmem hpred
      simp [this]

/-- `addSong` on an id that is already a member throws
`Error('Song already exists in playlist')`. -/
lemma addSong_mem_fails (store : SongStore) (p : Playlist) (sid uid now : Nat)
    (h : sid ∈ p.songs.map (·.song)) :
    addSong store p sid uid now = .error (.error "Song already exists in playlist") := by
  unfold addSong
  have : (p.songs.find? (fun s => s.song == sid)).isSome := by
    obtain ⟨e, he, hse⟩ := List.mem_map.1 h
    exact List.find?_isSome.2 ⟨e, he, by simpa using hse⟩
  rw [if_pos this]

/-- `addSong` on a fresh id appends one entry recording `addedBy`/`addedAt`
whose order key strictly dominates every existing order key. -/
lemma addSong_absent (store : SongStore) (p : Playlist) (sid uid now : Nat)
    (h : sid ∉ p.songs.map (·.song)) :
    ∃ q m, addSong store p sid uid now = .ok q ∧
      q.songs = p.songs ++ [{ song := sid, addedAt := now, addedBy := uid, order := m }] ∧
      ∀ e ∈ p.songs, e.order < m := by
  have hfind : p.songs.find? (fun s => s.song == sid) = none := by
    apply List.find?_eq_none.2
    intro e he
    have : e.song ≠ sid := fun hc => h (List.mem_map.2 ⟨e, he, hc⟩)
    simpa using this
  unfold addSong
  rw [hfind]
  simp only [Option.isSome_none, Bool.false_eq_true, if_false]
  refine ⟨_, _, rfl, preSave_songs _ _, ?_⟩
  intro e he
  have hne : p.songs.length > 0 := List.length_pos.2 (List.ne_nil_of_mem he)
  rw [if_pos hne]
  have : e.order ∈ p.songs.map (·.order) := List.mem_map.2 ⟨e, he, rfl⟩
  have := listMax_ge _ _ this
  omega

/-! ### Playlist aggregate: reordering -/

/-- Setting the order of the first match keeps the song-id sequence. -/
lemma setOrderFirst_map_song (sid : Nat) (n : Int) (l : List SongEntry) :
    (setOrderFirst sid n l).map (·.song) = l.map (·.song) := by
  induction l with
  | nil => rfl
  | cons e es ih =>
    unfold setOrderFirst
    split
    · rfl
    · simp [ih]

/-- An entry with a different song id is untouched by `setOrderFirst`. -/
lemma mem_setOrderFirst_of_ne (sid : Nat) (n : Int) (l : List SongEntry)
    (e : SongEntry) (he : e ∈ l) (hne : e.song ≠ sid) :
    e ∈ setOrderFirst sid n l := by
  induction l with
  | nil => cases he
  | cons f fs ih =>
    unfold setOrderFirst
    rcases List.mem_cons.1 he with h | h
    · subst h
      rw [if_neg (by simpa using hne)]
      exact List.mem_cons_self _ _
    · split
      · exact List.mem_cons_of_mem _ h
      · exact List.mem_cons_of_mem _ (ih h)

/-- When song ids are distinct, the unique entry matching `sid` appears in
the result with its order replaced by `n`. -/
lemma mem_setOrderFirst_self (sid : Nat) (n : Int) (l : List SongEntry)
    (hnd : (l.map (·.song)).Nodup) (e : SongEntry) (he : e ∈ l)
    (hsid : e.song = sid) :
    { e with order := n } ∈ setOrderFirst sid n l := by
  induction l with
  | nil => cases he
  | cons f fs ih =>
    unfold setOrderFirst
    rcases List.mem_cons.1 he with h | h
    · subst h
      rw [if_pos (by simpa using hsid)]
      exact List.mem_cons_self _ _
    · have hfs : f.song ≠ sid := by
        intro hc
        have h1 : e.song ∈ fs.map (·.song) := List.mem_map.2 ⟨e, h, rfl⟩
        have h2 : f.song ∉ fs.map (·.song) := by
          simp only [List.map_cons, List.nodup_cons] at hnd
          exact hnd.1
        rw [hc, ← hsid] at h2
        exact h2 h1
      rw [if_neg (by simpa using hfs)]
      have hnd' : (fs.map (·.song)).Nodup := by
        simp only [List.map_cons, List.nodup_cons] at hnd
        exact hnd.2
      exact List.mem_cons_of_mem _ (ih hnd' h)

/-- Unfolding one step of the assignment loop. -/
lemma applyAssigns_cons (a : Assign) (as : List Assign) (l : List SongEntry) :
    applyAssigns (a :: as) l = applyAssigns as (setOrderFirst a.songId a.newOrder l) := rfl

/-- The assignment loop keeps the song-id sequence. -/
lemma applyAssigns_map_song (as : List Assign) (l : List SongEntry) :
    (applyAssigns as l).map (·.song) = l.map (·.song) := by
  induction as generalizing l with
  | nil => rfl
  | cons a as ih =>
    rw [applyAssigns_cons, ih, setOrderFirst_map_song]

/-- An entry whose song id is mentioned by no assignment survives the
assignment loop unchanged. -/
lemma mem_applyAssigns_not_mentioned (as : List Assign) (l : List SongEntry)
    (e : SongEntry) (he : e ∈ l) (hne : e.song ∉ as.map (·.songId)) :
    e ∈ applyAssigns as l := by
  induction as generalizing l with
  | nil => exact he
  | cons a as ih =>
    rw [applyAssigns_cons]
    simp only [List.map_cons, List.mem_cons] at hne
    push_neg at hne
    exact ih _ (mem_setOrderFirst_of_ne _ _ _ _ he hne.1) hne.2

/-- With distinct playlist song ids and distinct assignment targets, the
entry matching an assignment survives the loop with the assigned order. -/
lemma mem_applyAssigns_mentioned (as : List Assign) (l : List SongEntry)
    (hnd : (l.map (·.song)).Nodup) (hand : (as.map (·.songId)).Nodup)
    (a : Assign) (ha : a ∈ as) (e : SongEntry) (he : e ∈ l)
    (hsid : e.song = a.songId) :
    { e with order := a.newOrder } ∈ applyAssigns as l := by
  induction as generalizing l with
  | nil => cases ha
  | cons b bs ih =>
    rw [applyAssigns_cons]
    rcases List.mem_cons.1 ha with h | h
    · subst h
      have h1 : { e with order := a.newOrder } ∈ setOrderFirst a.songId a.newOrder l :=
        mem_setOrderFirst_self _ _ _ hnd e he hsid
      apply mem_applyAssigns_not_mentioned _ _ _ h1
      show e.song ∉ bs.map (·.songId)
      rw [hsid]
      simp only [List.map_cons, List.nodup_cons] at hand
      exact hand.1
    · have hbs : a.songId ∈ bs.map (·.songId) := List.mem_map.2 ⟨a, h, rfl⟩
      have hneb : e.song ≠ b.songId := by
        intro hc
        simp only [List.map_cons, List.nodup_cons] at hand
        rw [← hc, hsid] at hand
        exact hand.1 hbs
      have hnd' : ((setOrderFirst b.songId b.newOrder l).map (·.song)).Nodup := by
        rw [setOrderFirst_map_song]; exact hnd
      have hand' : (bs.map (·.songId)).Nodup := by
        simp only [List.map_cons, List.nodup_cons] at hand
        exact hand.2
      exact ih _ hnd' hand' h (mem_setOrderFirst_of_ne _ _ _ _ he hneb)

/-- Stable insertion produces a permutation of the cons. -/
lemma insertByOrder_perm (e : SongEntry) (l : List SongEntry) :
    List.Perm (insertByOrder e l) (e :: l) := by
  induction l with
  | nil => exact List.Perm.refl _
  | cons f fs ih =>
    unfold insertByOrder
    split
    · exact List.Perm.refl _
    · exact List.Perm.trans (ih.cons f) (List.Perm.swap _ _ _)

/-- The stable sort produces a permutation of its input. -/
lemma sortByOrder_perm (l : List SongEntry) : List.Perm (sortByOrder l) l := by
  induction l with
  | nil => exact List.Perm.refl _
  | cons e es ih =>
    exact List.Perm.trans (insertByOrder_perm e (sortByOrder es)) (ih.cons e)

/-- The stable sort preserves membership. -/
lemma mem_sortByOrder {x : SongEntry} {l : List SongEntry} :
    x ∈ sortByOrder l ↔ x ∈ l :=
  (sortByOrder_perm l).mem_iff

/-- Stable insertion preserves sortedness by the order key. -/
lemma insertByOrder_pairwise (e : SongEntry) (l : List SongEntry)
    (h : l.Pairwise (fun a b => a.order ≤ b.order)) :
    (insertByOrder e l).Pairwise (fun a b => a.order ≤ b.order) := by
  induction l with
  | nil => simp [insertByOrder]
  | cons f fs ih =>
    rw [List.pairwise_cons] at h
    unfold insertByOrder
    split
    · rename_i hef
      rw [List.pairwise_cons]
      constructor
      · intro x hx
        rcases List.mem_cons.1 hx with h1 | h2
        · subst h1; exact hef
        · exact le_trans hef (h.1 x h2)
      · rw [List.pairwise_cons]
        exact h
    · rename_i hef
      push_neg at hef
      rw [List.pairwise_cons]
      constructor
      · intro x hx
        rcases List.mem_cons.1 ((insertByOrder_perm e fs).mem_iff.1 hx) with h1 | h2
        · subst h1; exact le_of_lt hef
        · exact h.1 x h2
      · exact ih h.2

/-- The result of the stable sort is sorted by the order key. -/
lemma sortByOrder_pairwise (l : List SongEntry) :
    (sortByOrder l).Pairwise (fun a b => a.order ≤ b.order) := by
  induction l with
  | nil => exact List.Pairwise.nil
  | cons e es ih => exact insertByOrder_pairwise e _ ih

/-! ### Claim theorems -/

/-- Claim C1, evaluated at the input on which the code breaks the claimed
invariant: starting from a fresh playlist, `addSong` of song 1 (300 s) then
`removeSong` of that last remaining song leaves an empty membership list
but the stored `duration` stuck at 300 — the pre-save hook recomputes the
duration only when the `songs` array is non-empty, so it is not reset to 0
(the sum over the empty membership). -/
theorem duration_stale_after_removing_last_song :
    ((addSong demoStore demoEmptyPl 1 7 0).toOption.bind
      (fun q => (removeSong demoStore q 1).toOption)).map
      (fun q => (q.songs, q.duration)) = some ([], 300) := by decide

/-- Claim C2, evaluated at the failing inputs: with an absent (anonymous)
user id, `canView` on a public playlist does return `true`, but `canView`
on a private playlist and `canEdit` on every playlist throw a `TypeError`
(from `userId.toString()`) instead of returning `false` — the functions
are not total. -/
theorem authorization_checks_throw_for_anonymous :
    canView demoPublicPl none = .ok true ∧
    canView demoPrivatePl none = .error .typeError ∧
    canEdit demoPublicPl none = .error .typeError ∧
    canEdit demoPrivatePl none = .error .typeError := by decide

/-- Claim C3: from any well-formed state (likes/dislikes are duplicate-free
sets with empty intersection), after every sequence of `toggleLike` and
`toggleDislike` calls no user is in both sets; and after `toggleLike u`
followed by `toggleDislike u`, `u` is in `dislikes` and not in `likes`. -/
theorem likes_dislikes_mutually_exclusive (s : SongState) (ops : List ToggleOp)
    (u : Nat) (h : SongStateWF s) :
    (∀ v ∈ (runToggles s ops).likes, v ∉ (runToggles s ops).dislikes) ∧
    u ∈ (toggleDislike (toggleLike (runToggles s ops) u) u).dislikes ∧
    u ∉ (toggleDislike (toggleLike (runToggles s ops) u) u).likes := by
  have hwf := h.runToggles ops
  exact ⟨hwf.2.2, (like_then_dislike hwf u).1, (like_then_dislike hwf u).2⟩

/-- Witness for claim C3 at a concrete state and toggle sequence. -/
theorem likes_dislikes_mutually_exclusive_witness :
    SongStateWF demoSongState ∧
    ((∀ v ∈ (runToggles demoSongState demoToggleOps).likes,
        v ∉ (runToggles demoSongState demoToggleOps).dislikes) ∧
      5 ∈ (toggleDislike (toggleLike (runToggles demoSongState demoToggleOps) 5) 5).dislikes ∧
      5 ∉ (toggleDislike (toggleLike (runToggles demoSongState demoToggleOps) 5) 5).likes) :=
  ⟨by decide, likes_dislikes_mutually_exclusive demoSongState demoToggleOps 5 (by decide)⟩

/-- Claim C4, counterexample: calling `addCollaborator` with the owner's
own id is not rejected — on a playlist owned by user 1 with no
collaborators the call succeeds and the owner ends up in the collaborator
list, contradicting the claimed rejection and the claimed invariant. -/
theorem addCollaborator_owner_not_rejected :
    (addCollaborator demoStore demoOwnerPl demoOwnerPl.createdBy Role.editor 5).collaborators =
      [{ user := 1, role := Role.editor, addedAt := 5 }] := by decide

/-- Claim C4 as amended: `addCollaborator` applies the same upsert to the
owner's id as to any other id — after the call the owner always appears
among the collaborator user ids (already present entries keep their user
id with the role updated; otherwise a new entry is pushed). -/
theorem addCollaborator_owner_upsert (store : SongStore) (p : Playlist)
    (r : Role) (now : Nat) :
    p.createdBy ∈ (addCollaborator store p p.createdBy r now).collaborators.map (·.user) :=
  addCollaborator_mem store p p.createdBy r now

/-- Claim C5: if `songId` is already a member, `addSong` fails with the
AlreadyExists error (the JS method throws before any mutation, so the
membership is unchanged); if it is not, `addSong` appends one entry
recording `addedBy` and `addedAt` whose order key is strictly greater than
every existing order key. -/
theorem addSong_spec (store : SongStore) (p : Playlist) (sid uid now : Nat) :
    (sid ∈ p.songs.map (·.song) →
      addSong store p sid uid now = .error (.error "Song already exists in playlist")) ∧
    (sid ∉ p.songs.map (·.song) →
      ∃ q m, addSong store p sid uid now = .ok q ∧
        q.songs = p.songs ++ [{ song := sid, addedAt := now, addedBy := uid, order := m }] ∧
        ∀ e ∈ p.songs, e.order < m) :=
  ⟨addSong_mem_fails store p sid uid now, addSong_absent store p sid uid now⟩

/-- Witness for claim C5 on a one-song playlist: re-adding song 1 fails
with AlreadyExists, adding fresh song 2 appends it. -/
theorem addSong_spec_witness :
    (addSong demoStore demoOneSongPl 1 7 9 =
      .error (.error "Song already exists in playlist")) ∧
    (∃ q m, addSong demoStore demoOneSongPl 2 7 9 = .ok q ∧
      q.songs = demoOneSongPl.songs ++
        [{ song := 2, addedAt := 9, addedBy := 7, order := m }] ∧
      ∀ e ∈ demoOneSongPl.songs, e.order < m) :=
  ⟨(addSong_spec demoStore demoOneSongPl 1 7 9).1 (by decide),
   (addSong_spec demoStore demoOneSongPl 2 7 9).2 (by decide)⟩

/-- Claim C6: `reorderSongs` keeps unmentioned entries with their order
keys unchanged, gives each mentioned entry its assigned order key, sorts
the membership by order key ascending, and on the scenario playlist
`[S1:1, S2:2, S3:3]` with assignments `[{S3,1},{S1,3}]` produces the
sequence `[S3, S2, S1]`. -/
theorem reorderSongs_spec (store : SongStore) (p : Playlist) (assigns : List Assign)
    (hp : (p.songs.map (·.song)).Nodup) (ha : (assigns.map (·.songId)).Nodup) :
    (∀ e ∈ p.songs, e.song ∉ assigns.map (·.songId) →
      e ∈ (reorderSongs store p assigns).songs) ∧
    (∀ a ∈ assigns, ∀ e ∈ p.songs, e.song = a.songId →
      { e with order := a.newOrder } ∈ (reorderSongs store p assigns).songs) ∧
    ((reorderSongs store p assigns).songs).Pairwise (fun x y => x.order ≤ y.order) ∧
    ((reorderSongs demoStore demoReorderPl demoAssigns).songs.map (·.song) = [3, 2, 1]) := by
  have hsongs : (reorderSongs store p assigns).songs =
      sortByOrder (applyAssigns assigns p.songs) := preSave_songs _ _
  refine ⟨?_, ?_, ?_, by decide⟩
  · intro e he hne
    rw [hsongs, mem_sortByOrder]
    exact mem_applyAssigns_not_mentioned assigns p.songs e he hne
  · intro a haa e he hsid
    rw [hsongs, mem_sortByOrder]
    exact mem_applyAssigns_mentioned assigns p.songs hp ha a haa e he hsid
  · rw [hsongs]
    exact sortByOrder_pairwise _

/-- Witness for claim C6 on the scenario playlist. -/
theorem reorderSongs_spec_witness :
    (demoReorderPl.songs.map (·.song)).Nodup ∧
    (demoAssigns.map (·.songId)).Nodup ∧
    ((reorderSongs demoStore demoReorderPl demoAssigns).songs.map (·.song) = [3, 2, 1]) :=
  ⟨by decide, by decide,
    (reorderSongs_spec demoStore demoReorderPl demoAssigns (by decide) (by decide)).2.2.2⟩

/-- Claim C7: on a state whose `likes` array holds a user at most once (the
set semantics the schema maintains), two consecutive `toggleLike` calls for
that user return the user's like-membership to its original value. -/
theorem toggleLike_twice_round_trip (s : SongState) (u : Nat)
    (h : s.likes.count u ≤ 1) :
    (u ∈ (toggleLike (toggleLike s u) u).likes ↔ u ∈ s.likes) := by
  unfold toggleLike
  by_cases hu : u ∈ s.likes
  · have hc1 : s.likes.count u = 1 := by
      have := List.count_pos_iff.2 hu
      omega
    have hnot : u ∉ s.likes.erase u := by
      rw [← List.count_eq_zero, List.count_erase_self, hc1]
    simp only [if_pos hu, if_neg hnot]
    simp [hu]
  · have hmem : u ∈ s.likes ++ [u] := by simp
    simp only [if_neg hu, if_pos hmem]
    rw [List.erase_append_right _ hu]
    simp [hu]

/-- Witness for claim C7: toggling user 3's like twice on the demo state
restores their like-membership. -/
theorem toggleLike_twice_round_trip_witness :
    demoSongState.likes.count 3 ≤ 1 ∧
    (3 ∈ (toggleLike (toggleLike demoSongState 3) 3).likes ↔ 3 ∈ demoSongState.likes) :=
  ⟨by decide, toggleLike_twice_round_trip demoSongState 3 (by decide)⟩

set_option maxRecDepth 40000 in
/-- Claim C8: `addToHistory` prepends the new entry (it is the head of the
resulting history) and the history never exceeds 100 entries; 105
sequential calls starting from an empty history leave exactly 100 entries
with the most recent call's entry first. -/
theorem addToHistory_spec :
    (∀ h sid dur now,
      (addToHistory h sid dur now).head? =
        some { song := sid, playedAt := now, duration := dur } ∧
      (addToHistory h sid dur now).length ≤ 100) ∧
    hist105.length = 100 ∧
    hist105.head? = some { song := 104, playedAt := 104, duration := 104 } := by
  refine ⟨?_, by decide, by decide⟩
  intro h sid dur now
  simp only [addToHistory]
  constructor
  · split
    · have h100 : (100:Nat) = 99 + 1 := rfl
      rw [h100, List.take_succ_cons]
      rfl
    · rfl
  · split
    · rename_i hlen
      simp only [List.length_take]
      omega
    · rename_i hlen
      simp only [List.length_cons] at hlen ⊢
      omega

/-- Claim C9: the owner can always edit, whatever the collaborator list or
flags; a user who is neither owner nor collaborator can never edit, even
on a public playlist; a non-owner collaborator whose entries carry role
`viewer` cannot edit. -/
theorem canEdit_spec (p : Playlist) (u : Nat) :
    (p.createdBy = u → canEdit p (some u) = .ok true) ∧
    (p.createdBy ≠ u → (∀ c ∈ p.collaborators, c.user ≠ u) →
      canEdit p (some u) = .ok false) ∧
    (p.createdBy ≠ u → (∀ c ∈ p.collaborators, c.user = u → c.role = Role.viewer) →
      canEdit p (some u) = .ok false) :=
  ⟨canEdit_owner p u, canEdit_stranger p u, canEdit_viewer p u⟩

/-- Witness for claim C9 on a collaborative playlist owned by user 1 with
viewer collaborator 2: 1 can edit, stranger 3 cannot, viewer 2 cannot. -/
theorem canEdit_spec_witness :
    canEdit demoViewerPl (some 1) = .ok true ∧
    canEdit demoViewerPl (some 3) = .ok false ∧
    canEdit demoViewerPl (some 2) = .ok false :=
  ⟨(canEdit_spec demoViewerPl 1).1 (by decide),
   (canEdit_spec demoViewerPl 3).2.1 (by decide) (by decide),
   (canEdit_spec demoViewerPl 2).2.2 (by decide) (by decide)⟩

/-- Claim C10: removing a song id that is not a member completes without
signaling any error (the result is `Except.ok`, exactly as the JS body,
which can throw nothing) and leaves the membership list unchanged. -/
theorem removeSong_absent_noop (store : SongStore) (p : Playlist) (sid : Nat)
    (h : sid ∉ p.songs.map (·.song)) :
    ∃ q, removeSong store p sid = .ok q ∧ q.songs = p.songs := by
  refine ⟨_, rfl, ?_⟩
  rw [preSave_songs]
  apply List.filter_eq_self.2
  intro e he
  have : e.song ≠ sid := by
    intro hcontra
    exact h (List.mem_map.2 ⟨e, he, hcontra⟩)
  simpa using this

/-- Witness for claim C10: removing absent song 99 from the one-song
playlist is a no-op. -/
theorem removeSong_absent_noop_witness :
    (99 ∉ demoOneSongPl.songs.map (·.song)) ∧
    (∃ q, removeSong demoStore demoOneSongPl 99 = .ok q ∧ q.songs = demoOneSongPl.songs) :=
  ⟨by decide, removeSong_absent_noop demoStore demoOneSongPl 99 (by decide)⟩

end TuneForge
